import Mathlib

/-!
Verification of the request-routing core of the easegress HTTP gateway:
the IP filter (`pkg/util/ipfilter/ipfilter.go`), the mux dispatcher
(`pkg/context/httpresponse.go`, `httpserver` part), and the redirector's
initialization normalization.  Go source functions are embedded shallowly as
executable Lean definitions; external collaborators (the Go `net` and
`regexp` libraries, the route-cache container, `stringtool`) are modelled
explicitly where claims depend on them.
-/

set_option autoImplicit false

namespace Easegress

/-! ## IP addresses and CIDR ranges (model of the Go `net` library)

The claims about `IPFilter.Allow` quantify over the decision structure, not
over the details of textual IP parsing.  The model below implements Go's
`net.ParseIP` restricted to IPv4 dotted-decimal form (an address containing
a colon is treated as unparseable; no claim exercises IPv6 inputs), and
`net.ParseCIDR` for IPv4 `a.b.c.d/n` prefixes. -/

/-- Splits a character list at every occurrence of the separator; the
accumulator holds the current field reversed. -/
def splitCharsAux (sep : Char) : List Char → List Char → List (List Char)
  | [], acc => [acc.reverse]
  | x :: xs, acc =>
    if x = sep then acc.reverse :: splitCharsAux sep xs []
    else splitCharsAux sep xs (x :: acc)

/-- Splits a character list on a separator character (model of
`strings.Split`). -/
def splitChars (sep : Char) (l : List Char) : List (List Char) :=
  splitCharsAux sep l []

/-- The value of a decimal digit string. -/
def digitsVal (l : List Char) : Nat :=
  l.foldl (fun n c => n * 10 + (c.toNat - 48)) 0

/-- One field of a dotted-decimal IPv4 address: one to three digits, value
at most 255, no leading zero (as in Go's post-1.17 `net.ParseIP`). -/
def parseIPv4Field (l : List Char) : Option Nat :=
  if l = [] then none
  else if ¬ l.all Char.isDigit then none
  else if l.length > 3 then none
  else if l.length > 1 ∧ l.head? = some '0' then none
  else if digitsVal l ≤ 255 then some (digitsVal l) else none

/-- Model of `net.ParseIP`, IPv4 only: the parsed address as a `Nat` below
`2 ^ 32`. -/
def parseIP (s : String) : Option Nat :=
  match splitChars '.' s.data with
  | [a, b, c, d] =>
    match parseIPv4Field a, parseIPv4Field b, parseIPv4Field c, parseIPv4Field d with
    | some va, some vb, some vc, some vd => some (((va * 256 + vb) * 256 + vc) * 256 + vd)
    | _, _, _, _ => none
  | _ => none

/-- An IPv4 network: the address of the network and its mask length. -/
structure IPNet where
  base : Nat
  maskLen : Nat
  deriving Repr, DecidableEq

/-- Whether an address lies in the network: the two addresses agree on the
first `maskLen` bits. -/
def IPNet.containsIP (n : IPNet) (ip : Nat) : Bool :=
  ip / 2 ^ (32 - n.maskLen) = n.base / 2 ^ (32 - n.maskLen)

/-- A decimal number: nonempty, all digits (model of the mask-length parse
inside `net.ParseCIDR`). -/
def parseDecimal (l : List Char) : Option Nat :=
  if l = [] then none
  else if ¬ l.all Char.isDigit then none
  else some (digitsVal l)

/-- Model of `net.ParseCIDR` for IPv4: `a.b.c.d/n` with `n ≤ 32`. -/
def parseCIDR (s : String) : Option IPNet :=
  match splitChars '/' s.data with
  | [ipChars, lenChars] =>
    match parseIP (String.mk ipChars), parseDecimal lenChars with
    | some ip, some len => if len ≤ 32 then some ⟨ip, len⟩ else none
    | _, _ => none
  | _ => none

/-- Model of `cidranger.Ranger`: the set of inserted networks.  The library's
`Contains` reports an error only for inputs that are not 4- or 16-byte
addresses, which a successful `net.ParseIP` never produces, so the model's
lookup is total; `IPFilter.Allow` below still keeps the error branches of the
Go code, which are unreachable under this model. -/
structure Ranger where
  nets : List IPNet
  deriving Repr, DecidableEq

/-- Model of `Ranger.Contains`: whether any inserted network contains the
address.  The `Except` mirrors the `(bool, error)` return of the library. -/
def Ranger.containsIP (r : Ranger) (ip : Nat) : Except String Bool :=
  Except.ok (r.nets.any (fun n => n.containsIP ip))

/-! ## The IP filter (`pkg/util/ipfilter/ipfilter.go`) -/

/-- `ipfilter.Spec` (ipfilter.go lines 20-25). -/
structure IPFilterSpec where
  blockByDefault : Bool
  allowIPs : List String
  blockIPs : List String
  deriving Repr, DecidableEq

/-- `ipfilter.IPFilter` (ipfilter.go lines 28-33). -/
structure IPFilter where
  spec : IPFilterSpec
  allowRanger : Ranger
  blockRanger : Ranger
  deriving Repr, DecidableEq

/-- `rangerFromIPCIDRs` inside `ipfilter.New` (ipfilter.go lines 43-66): a
bare IP that parses is inserted as a full-length network (`/32`; the
`/128` IPv6 case is outside the IPv4 model); otherwise the entry is parsed
as a CIDR.  On a CIDR parse error the Go code logs `BUG` and then
dereferences the nil `*net.IPNet` (a panic); no claim exercises an invalid
entry, and the model skips it. -/
def rangerFromIPCIDRs (ipcidrs : List String) : Ranger :=
  ⟨ipcidrs.filterMap (fun ipcidr =>
    match parseIP ipcidr with
    | some ip => some ⟨ip, 32⟩
    | none => parseCIDR ipcidr)⟩

/-- `ipfilter.New` (ipfilter.go lines 42-74). -/
def ipfilterNew (spec : IPFilterSpec) : IPFilter :=
  { spec := spec
    allowRanger := rangerFromIPCIDRs spec.allowIPs
    blockRanger := rangerFromIPCIDRs spec.blockIPs }

/-- `IPFilter.Allow` (ipfilter.go lines 82-110). -/
def IPFilter.Allow (f : IPFilter) (ipstr : String) : Bool :=
  let defaultResult := ! f.spec.blockByDefault
  match parseIP ipstr with
  | none => defaultResult
  | some ip =>
    match f.allowRanger.containsIP ip with
    | Except.error _ => defaultResult
    | Except.ok allowed =>
      match f.blockRanger.containsIP ip with
      | Except.error _ => defaultResult
      | Except.ok blocked =>
        if allowed ∧ blocked then defaultResult
        else if allowed then true
        else if blocked then false
        else defaultResult

/-- `IPFilters` (ipfilter.go lines 36-38): a chain of filters. -/
structure IPFilters where
  filters : List IPFilter

/-- The loop of `IPFilters.Allow` (ipfilter.go lines 134-138): the first
filter that refuses decides; an exhausted list allows. -/
def allowLoop (filters : List IPFilter) (ipstr : String) : Bool :=
  match filters with
  | [] => true
  | f :: rest => if ¬ f.Allow ipstr then false else allowLoop rest ipstr

/-- `IPFilters.Allow` (ipfilter.go lines 133-141). -/
def IPFilters.Allow (c : IPFilters) (ipstr : String) : Bool :=
  allowLoop c.filters ipstr

/-- `NewIPfilters` (ipfilter.go lines 113-115). -/
def NewIPfilters (filters : List IPFilter) : IPFilters :=
  ⟨filters⟩

/-! ## Claims C4 and C5 -/

/-- The decision table of the spec (§4.1) on the two membership bits. -/
def allowTable (defaultResult allowed blocked : Bool) : Bool :=
  if allowed ∧ blocked then defaultResult
  else if allowed then true
  else if blocked then false
  else defaultResult

theorem allowLoop_eq_all (filters : List IPFilter) (ipstr : String) :
    allowLoop filters ipstr = filters.all (fun f => f.Allow ipstr) := by
  induction filters with
  | nil => rfl
  | cons f rest ih =>
    by_cases h : f.Allow ipstr = true <;> simp [allowLoop, h, ih]

/-- C4: `IPFilter.Allow` follows the decision table with
`defaultResult = not blockByDefault`: an unparseable input yields the
default; a parsed address yields the table on the allow/block membership
bits; and with both lists empty the result is the default for every input —
in particular `false` everywhere when `blockByDefault` is set, `true`
everywhere when it is not. -/
theorem ipfilter_allow_follows_decision_table (spec : IPFilterSpec) (ipstr : String) :
    ((ipfilterNew spec).Allow ipstr =
      match parseIP ipstr with
      | none => ! spec.blockByDefault
      | some ip =>
        allowTable (! spec.blockByDefault)
          ((rangerFromIPCIDRs spec.allowIPs).nets.any (fun n => n.containsIP ip))
          ((rangerFromIPCIDRs spec.blockIPs).nets.any (fun n => n.containsIP ip))) ∧
    (spec.allowIPs = [] → spec.blockIPs = [] →
      (ipfilterNew spec).Allow ipstr = ! spec.blockByDefault) := by
  constructor
  · cases h : parseIP ipstr <;>
      simp [IPFilter.Allow, ipfilterNew, Ranger.containsIP, allowTable, h]
  · intro ha hb
    cases h : parseIP ipstr <;>
      simp [IPFilter.Allow, ipfilterNew, Ranger.containsIP, rangerFromIPCIDRs, h, ha, hb]

/-- Witness for C4: the decision-table equation at a concrete filter whose
block list holds the queried address, and the empty-lists clause at both
polarities of `blockByDefault`, including an unparseable input. -/
theorem ipfilter_allow_follows_decision_table_witness :
    (ipfilterNew ⟨false, [], ["9.9.9.9"]⟩).Allow "9.9.9.9" = false ∧
    (ipfilterNew ⟨true, [], []⟩).Allow "8.8.8.8" = false ∧
    (ipfilterNew ⟨false, [], []⟩).Allow "not-an-ip" = true := by
  refine ⟨?_, ?_, ?_⟩
  · have h := (ipfilter_allow_follows_decision_table ⟨false, [], ["9.9.9.9"]⟩ "9.9.9.9").1
    rw [h]; decide
  · exact (ipfilter_allow_follows_decision_table ⟨true, [], []⟩ "8.8.8.8").2 rfl rfl
  · exact (ipfilter_allow_follows_decision_table ⟨false, [], []⟩ "not-an-ip").2 rfl rfl

/-- C5: a filter chain allows an input exactly when every filter in the
chain allows it; the empty chain allows every input. -/
theorem ipfilters_allow_iff_all (c : IPFilters) (ipstr : String) :
    (c.Allow ipstr = true ↔ ∀ f ∈ c.filters, f.Allow ipstr = true) ∧
    (NewIPfilters []).Allow ipstr = true := by
  refine ⟨?_, rfl⟩
  rw [IPFilters.Allow, allowLoop_eq_all, List.all_eq_true]

/-! ## Model of the Go `regexp` library

The mux stores compiled regular expressions (`*regexp.Regexp`); a compiled
matcher is modelled as its matching and substitution behaviour, and the
compiler as a function that may fail.  The claims never depend on the
semantics of a successfully compiled pattern — only on compilation failure
and on which matcher is consulted — so theorems quantify over the engine. -/

/-- A compiled regular expression: its observable behaviour. -/
structure Regexp where
  matchString : String → Bool
  replaceAllString : String → String → String

/-- A regular-expression compiler (`regexp.Compile`): `none` models a
compilation error. -/
structure RegexEngine where
  compile : String → Option Regexp

/-- Whether a parenthesis list is balanced, tracking the open depth. -/
def parensBalancedFrom : List Char → Nat → Bool
  | [], n => n = 0
  | c :: rest, n =>
    if c = '(' then parensBalancedFrom rest (n + 1)
    else if c = ')' then
      match n with
      | 0 => false
      | m + 1 => parensBalancedFrom rest m
    else parensBalancedFrom rest n

/-- A concrete engine for closed instances: a pattern compiles exactly when
its parentheses are balanced, which suffices to exhibit Go-invalid patterns
such as `"("`.  The behaviour of a successfully compiled matcher is not
consulted by any instance, so it is a stub. -/
def regexEngineModel : RegexEngine :=
  ⟨fun pat =>
    if parensBalancedFrom pat.data 0 then some ⟨fun _ => false, fun s _ => s⟩
    else none⟩

/-! ## The mux data model (`httpserver` part of httpresponse.go)

The HTTP context collaborator is reduced to the request fields the mux
reads: host, method, path, the first value of each header, and the real IP
(`context.HTTPContext`, spec §6).  Go's `Header().Get` canonicalizes the
key's MIME capitalization; the model looks keys up verbatim, and every
instance uses one spelling per key. -/

/-- The request observables consumed by the mux. -/
structure Request where
  host : String
  method : String
  path : String
  headers : List (String × String)
  realIP : String

/-- Model of `http.Header.Get`: the first value for the key, or `""`. -/
def headerGet (headers : List (String × String)) (key : String) : String :=
  match headers.find? (fun kv => kv.1 = key) with
  | some kv => kv.2
  | none => ""

/-- Model of `stringtool.StrInSlice` (not under src/): list membership. -/
def strInSlice (s : String) (l : List String) : Bool :=
  l.contains s

/-- Modelled from the spec: `stringtool.Cat` is not under src/; per §3 the
fingerprint is the tuple joined into a single string, and the glossary's
`host|method|path` is notation — `Cat` concatenates its arguments with no
separator. -/
def stringsCat (parts : List String) : String :=
  String.join parts

/-- A `Header` of a path spec after `initHeaderRoute` (spec §3
`HeaderRule`): key, literal values, optional regexp with its compiled
matcher. -/
structure MuxHeader where
  key : String
  values : List String
  regexp : String
  headerRE : Option Regexp

/-- `muxPath` (httpresponse.go lines 239-251). -/
structure MuxPath where
  ipFilter : Option IPFilter
  ipFilterChain : Option IPFilters
  path : String
  pathPrefix : String
  pathRegexp : String
  pathRE : Option Regexp
  methods : List String
  rewriteTarget : String
  backend : String
  headers : List MuxHeader

/-- `muxRule` (httpresponse.go lines 229-237). -/
structure MuxRule where
  ipFilter : Option IPFilter
  ipFilterChain : Option IPFilters
  host : String
  hostRegexp : String
  hostRE : Option Regexp
  paths : List MuxPath

/-- `cacheItem` of the route cache (referenced by httpresponse.go; the
carrier type is not under src/): a decision with the filter chain of the
node that produced it, and the `cached` marker set by `putCacheItem`. -/
structure CacheItem where
  cached : Bool
  ipFilterChan : Option IPFilters
  path : Option MuxPath
  notFound : Bool
  methodNotAllowed : Bool

/-- Modelled from the spec: the route cache container (`newCache`,
`cache.get`, `cache.put` are not under src/; spec §4.3 requires a bounded
mapping from fingerprint to decision with `get` and `put`).  The model is
an association list whose most recent insertion shadows older ones; the
`CacheSize` bound and eviction order are not claim-relevant and are not
modelled. -/
def RouteCache : Type := List (String × CacheItem)

/-- Modelled from the spec: `cache.get`. -/
def cacheGet (c : RouteCache) (key : String) : Option CacheItem :=
  match c.find? (fun kv => kv.1 = key) with
  | some kv => some kv.2
  | none => none

/-- Modelled from the spec: `cache.put`; the new entry shadows any older
entry for the same key. -/
def cachePut (c : RouteCache) (key : String) (item : CacheItem) : RouteCache :=
  (key, item) :: c

/-- `muxRules` (httpresponse.go lines 215-227), reduced to the fields the
dispatcher reads; `spec.XForwardedFor` is inlined as `xForwardedFor`, and
the supervisor/tracing fields are outside the claims. -/
structure MuxRules where
  cache : Option RouteCache
  ipFilter : Option IPFilter
  ipFilterChan : Option IPFilters
  xForwardedFor : Bool
  rules : List MuxRule

/-- The cache fingerprint computed by `getCacheItem`/`putCacheItem`
(httpresponse.go lines 296 and 307): `Cat(host, method, path)`. -/
def reqKey (r : Request) : String :=
  stringsCat [r.host, r.method, r.path]

/-- `muxRules.getCacheItem` (httpresponse.go lines 290-298). -/
def getCacheItem (mr : MuxRules) (r : Request) : Option CacheItem :=
  match mr.cache with
  | none => none
  | some c => cacheGet c (reqKey r)

/-- `muxRules.putCacheItem` (httpresponse.go lines 300-310): a no-op when
the snapshot has no cache or the item is already cached; otherwise stores
the item marked `cached` under the fingerprint.  Returns the new cache
state. -/
def putCacheItem (mr : MuxRules) (r : Request) (ci : CacheItem) : Option RouteCache :=
  match mr.cache with
  | none => none
  | some c =>
    if ci.cached then some c
    else some (cachePut c (reqKey r) { ci with cached := true })

/-- `muxRules.pass` (httpresponse.go lines 282-288). -/
def muxRulesPass (mr : MuxRules) (r : Request) : Bool :=
  match mr.ipFilter with
  | none => true
  | some f => f.Allow r.realIP

/-- `muxRule.pass` (httpresponse.go lines 336-342). -/
def muxRulePass (rule : MuxRule) (r : Request) : Bool :=
  match rule.ipFilter with
  | none => true
  | some f => f.Allow r.realIP

/-- `muxRule.match` (httpresponse.go lines 344-359). -/
def muxRuleMatch (rule : MuxRule) (r : Request) : Bool :=
  if rule.host == "" && rule.hostRE.isNone then true
  else if rule.host != "" && rule.host == r.host then true
  else match rule.hostRE with
    | some re => re.matchString r.host
    | none => false

/-- `muxPath.pass` (httpresponse.go lines 392-398). -/
def muxPathPass (p : MuxPath) (r : Request) : Bool :=
  match p.ipFilter with
  | none => true
  | some f => f.Allow r.realIP

/-- `muxPath.matchPath` (httpresponse.go lines 400-418). -/
def matchPath (p : MuxPath) (r : Request) : Bool :=
  if p.path == "" && p.pathPrefix == "" && p.pathRE.isNone then true
  else if p.path != "" && p.path == r.path then true
  else if p.pathPrefix != "" && r.path.startsWith p.pathPrefix then true
  else match p.pathRE with
    | some re => re.matchString r.path
    | none => false

/-- `muxPath.matchMethod` (httpresponse.go lines 420-426). -/
def matchMethod (p : MuxPath) (r : Request) : Bool :=
  if p.methods = [] then true
  else strInSlice r.method p.methods

/-- The loop of `muxPath.matchHeaders` over the header rules. -/
def matchHeadersLoop (p : MuxPath) (r : Request) : List MuxHeader → Option CacheItem
  | [] => none
  | h :: rest =>
    let v := headerGet r.headers h.key
    if strInSlice v h.values then
      some { cached := false, ipFilterChan := p.ipFilterChain, path := some p
             notFound := false, methodNotAllowed := false }
    else if h.regexp != "" && (match h.headerRE with
        | some re => re.matchString v
        | none => false) then
      some { cached := false, ipFilterChan := p.ipFilterChain, path := some p
             notFound := false, methodNotAllowed := false }
    else matchHeadersLoop p r rest

/-- `muxPath.matchHeaders` (httpresponse.go lines 428-443): `some ci` is the
Go `(ci, true)`, `none` the `(nil, false)`. -/
def matchHeaders (p : MuxPath) (r : Request) : Option CacheItem :=
  matchHeadersLoop p r p.headers

/-! ## `X-Forwarded-For` appending (`mux.appendXForwardedFor`,
httpresponse.go lines 632-645)

The function is modelled on the header value: `v` is the current
`X-Forwarded-For` value (`""` when the header is absent) and the result is
the value after the call. -/

/-- Whether `sub` occurs inside `l` (model of `strings.Contains` on the
character lists). -/
def listContainsInfix : List Char → List Char → Bool
  | sub, [] => sub.isEmpty
  | sub, a :: rest => sub.isPrefixOf (a :: rest) || listContainsInfix sub rest

/-- Model of `strings.Contains`. -/
def strContains (s sub : String) : Bool :=
  listContainsInfix sub.data s.data

/-- `mux.appendXForwardedFor` (httpresponse.go lines 632-645) as a function
on the header value. -/
def appendXForwardedFor (v ip : String) : String :=
  if v = "" then ip
  else if ¬ strContains v ip then v ++ "," ++ ip
  else v

/-! ## The dispatcher (`mux.ServeHTTP`, httpresponse.go lines 523-630)

The backend registry (`MuxMapper.Get`) is modelled as a predicate saying
whether a backend name resolves; the handler's own behaviour is outside the
mux.  The observable outcome of a dispatch is the status decision, plus the
backend name and the (possibly rewritten) request path handed to it. -/

/-- The observable outcome of one dispatch. -/
inductive Outcome where
  /-- An IP filter denied the request: 403 (`handleIPNotAllow`). -/
  | ipNotAllow
  /-- No route: 404. -/
  | notFound
  /-- Route matched, method did not: 405. -/
  | methodNotAllowed
  /-- The matched path's backend is absent from the registry: 503. -/
  | backendNotFound (backend : String)
  /-- The request was handed to a backend, with the final request path and
  the final `X-Forwarded-For` value seen by the handler. -/
  | handled (backend : String) (finalPath : String) (xffValue : String)
  /-- No branch of the decision switch fired (unreachable for items the
  dispatcher builds); the response keeps its initial status. -/
  | noDecision
  deriving Repr, DecidableEq

/-- The chain guard at the top of `handleRequestWithCache` (httpresponse.go
lines 597-602): `true` when the item carries no chain or the chain allows
the real IP. -/
def ciChainAllows (ci : CacheItem) (realIP : String) : Bool :=
  match ci.ipFilterChan with
  | none => true
  | some chain => chain.Allow realIP

/-- The path-rewrite step (httpresponse.go lines 623-627): when the path was
compiled from a regexp and a rewrite target is set, the request path is
replaced by the regex substitution. -/
def rewritePath (p : MuxPath) (path : String) : String :=
  match p.pathRE with
  | some re => if p.rewriteTarget != "" then re.replaceAllString path p.rewriteTarget else path
  | none => path

/-- `mux.handleRequestWithCache` (httpresponse.go lines 596-630).  When the
snapshot's `XForwardedFor` is set, the real IP is appended to the
`X-Forwarded-For` header (lines 619-621, the function
`appendXForwardedFor` below) before the hand-off. -/
def handleRequestWithCache (rules : MuxRules) (registry : String → Bool)
    (r : Request) (ci : CacheItem) : Outcome :=
  if ¬ ciChainAllows ci r.realIP then Outcome.ipNotAllow
  else if ci.notFound then Outcome.notFound
  else if ci.methodNotAllowed then Outcome.methodNotAllowed
  else match ci.path with
    | some p =>
      if registry p.backend then
        let xff := headerGet r.headers "X-Forwarded-For"
        Outcome.handled p.backend (rewritePath p r.path)
          (if rules.xForwardedFor then appendXForwardedFor xff r.realIP else xff)
      else Outcome.backendNotFound p.backend
    | none => Outcome.noDecision

/-- The inner path loop of `mux.ServeHTTP` (httpresponse.go lines 555-583):
`none` means the loop exhausted its paths without returning.  A returned
pair is the cache state after the iteration and the outcome. -/
def servePaths (rules : MuxRules) (registry : String → Bool) (r : Request) :
    List MuxPath → Option (Option RouteCache × Outcome)
  | [] => none
  | p :: rest =>
    if ¬ matchPath p r then servePaths rules registry r rest
    else if ¬ matchMethod p r then
      let ci : CacheItem := { cached := false, ipFilterChan := p.ipFilterChain
                              path := none, notFound := false, methodNotAllowed := true }
      some (putCacheItem rules r ci, handleRequestWithCache rules registry r ci)
    else if ¬ muxPathPass p r then some (rules.cache, Outcome.ipNotAllow)
    else match matchHeaders p r with
      | some ci => some (rules.cache, handleRequestWithCache rules registry r ci)
      | none =>
        let ci : CacheItem := { cached := false, ipFilterChan := p.ipFilterChain
                                path := some p, notFound := false, methodNotAllowed := false }
        some (putCacheItem rules r ci, handleRequestWithCache rules registry r ci)

/-- The outer rule loop of `mux.ServeHTTP` (httpresponse.go lines 545-584):
a rule whose host does not match is skipped; a matching rule whose own
filter denies returns 403; otherwise its paths are walked, and — the inner
loop being exhausted — the outer loop continues with the next rule. -/
def serveRules (rules : MuxRules) (registry : String → Bool) (r : Request) :
    List MuxRule → Option (Option RouteCache × Outcome)
  | [] => none
  | rule :: rest =>
    if ¬ muxRuleMatch rule r then serveRules rules registry r rest
    else if ¬ muxRulePass rule r then some (rules.cache, Outcome.ipNotAllow)
    else match servePaths rules registry r rule.paths with
      | some res => some res
      | none => serveRules rules registry r rest

/-- `mux.ServeHTTP` (httpresponse.go lines 523-589): cache probe, top-level
filter, host/path walk, and the `notFound` fall-through.  Returns the
outcome and the cache state after the dispatch. -/
def serveHTTP (rules : MuxRules) (registry : String → Bool) (r : Request) :
    Outcome × Option RouteCache :=
  match getCacheItem rules r with
  | some ci => (handleRequestWithCache rules registry r ci, rules.cache)
  | none =>
    if ¬ muxRulesPass rules r then (Outcome.ipNotAllow, rules.cache)
    else match serveRules rules registry r rules.rules with
      | some (c, o) => (o, c)
      | none =>
        let ci : CacheItem := { cached := false, ipFilterChan := rules.ipFilterChan
                                path := none, notFound := true, methodNotAllowed := false }
        (handleRequestWithCache rules registry r ci, putCacheItem rules r ci)

/-! ## Snapshot construction (`mux.reloadRules` and helpers,
httpresponse.go lines 254-280, 312-334, 361-390, 465-521) -/

/-- The `Header` entry of a path spec (spec §3 `HeaderRule`). -/
structure HeaderSpec where
  key : String
  values : List String
  regexp : String

/-- The `Path` entry of a rule spec (spec §3 `PathSpec`). -/
structure PathSpec where
  ipFilter : Option IPFilterSpec
  path : String
  pathPrefix : String
  pathRegexp : String
  rewriteTarget : String
  backend : String
  methods : List String
  headers : List HeaderSpec

/-- The `Rule` entry of the server spec (spec §3 `RuleSpec`). -/
structure RuleSpec where
  ipFilter : Option IPFilterSpec
  host : String
  hostRegexp : String
  paths : List PathSpec

/-- `newIPFilter` (httpresponse.go lines 274-280). -/
def newIPFilter (spec : Option IPFilterSpec) : Option IPFilter :=
  match spec with
  | none => none
  | some s => some (ipfilterNew s)

/-- `newIPFilterChain` (httpresponse.go lines 254-272): the parent's
filters extended by the child's own filter; absent when the result has zero
filters. -/
def newIPFilterChain (parent : Option IPFilters) (childSpec : Option IPFilterSpec) :
    Option IPFilters :=
  let fs := (match parent with
    | some pf => pf.filters
    | none => []) ++ (match childSpec with
    | some cs => [ipfilterNew cs]
    | none => [])
  if fs.isEmpty then none else some ⟨fs⟩

/-- Modelled from the spec: `Header.initHeaderRoute` is not under src/
(only its call site); per §4.4 it compiles the header rule's `Regexp`.  A
compilation failure leaves the matcher absent. -/
def initHeaderRoute (eng : RegexEngine) (h : HeaderSpec) : MuxHeader :=
  { key := h.key, values := h.values, regexp := h.regexp
    headerRE := if h.regexp != "" then eng.compile h.regexp else none }

/-- `newMuxPath` (httpresponse.go lines 361-390): the path regexp is
compiled only when set; a failure is logged as a BUG and leaves `pathRE`
absent. -/
def newMuxPath (eng : RegexEngine) (parentIPFilters : Option IPFilters)
    (p : PathSpec) : MuxPath :=
  { ipFilter := newIPFilter p.ipFilter
    ipFilterChain := newIPFilterChain parentIPFilters p.ipFilter
    path := p.path
    pathPrefix := p.pathPrefix
    pathRegexp := p.pathRegexp
    pathRE := if p.pathRegexp != "" then eng.compile p.pathRegexp else none
    rewriteTarget := p.rewriteTarget
    methods := p.methods
    backend := p.backend
    headers := p.headers.map (initHeaderRoute eng) }

/-- `newMuxRule` (httpresponse.go lines 312-334): the host regexp is
compiled only when set; a failure is logged as a BUG and leaves `hostRE`
absent. -/
def newMuxRule (eng : RegexEngine) (parentIPFilters : Option IPFilters)
    (rule : RuleSpec) (paths : List MuxPath) : MuxRule :=
  { ipFilter := newIPFilter rule.ipFilter
    ipFilterChain := newIPFilterChain parentIPFilters rule.ipFilter
    host := rule.host
    hostRegexp := rule.hostRegexp
    hostRE := if rule.hostRegexp != "" then eng.compile rule.hostRegexp else none
    paths := paths }

/-- One iteration of the rule-building loop of `reloadRules`
(httpresponse.go lines 506-518): the rule's chain feeds its paths, and the
rule itself is built from the root chain. -/
def buildRule (eng : RegexEngine) (rootChain : Option IPFilters) (r : RuleSpec) : MuxRule :=
  let ruleChain := newIPFilterChain rootChain r.ipFilter
  newMuxRule eng rootChain r (r.paths.map (newMuxPath eng ruleChain))

/-- The rule list built by `reloadRules`: one `muxRule` per spec rule. -/
def buildRules (eng : RegexEngine) (rootChain : Option IPFilters)
    (rs : List RuleSpec) : List MuxRule :=
  rs.map (buildRule eng rootChain)

/-! ## The redirector (`pkg/filters/redirector`; spec §4.8)

Only the redirector's test is under src/ (`TestRedirector` in
src/unnamed/part_000); the filter implementation itself is missing, so its
initialization is modelled from the spec. -/

/-- The redirector's spec (§4.8 Configuration; `Match` is the regex, which
initialization does not touch). -/
structure RedirectorSpec where
  matchPat : String
  matchPart : String
  replacement : String
  statusCode : Int
  deriving Repr, DecidableEq

/-- Modelled from the spec: the redirector's `Init` normalization (§4.8
Validation; the implementation is not under src/, only `TestRedirector`):
`MatchPart` is compared case-sensitively against `"uri"`, `"full"`,
`"path"` and anything else becomes `"uri"`; a `StatusCode` outside
`{301, 302, 303, 304, 307, 308}` becomes `301`. -/
def redirectorInit (s : RedirectorSpec) : RedirectorSpec :=
  { s with
    matchPart :=
      if s.matchPart = "uri" ∨ s.matchPart = "full" ∨ s.matchPart = "path" then
        s.matchPart
      else "uri"
    statusCode :=
      if s.statusCode ∈ ([301, 302, 303, 304, 307, 308] : List Int) then s.statusCode
      else 301 }

/-! ## Concrete fixtures used by closed instances -/

/-- A path spec compiled to a `muxPath` with no filters and no regexps. -/
def testPath (path backend : String) (methods : List String)
    (headers : List MuxHeader) : MuxPath :=
  ⟨none, none, path, "", "", none, methods, "", backend, headers⟩

/-- A rule with no filters and a match-any host. -/
def simpleRule (paths : List MuxPath) : MuxRule :=
  ⟨none, none, "", "", none, paths⟩

/-- A snapshot with no filters tagged on, given its cache and rules. -/
def plainRules (cache : Option RouteCache) (rules : List MuxRule) : MuxRules :=
  ⟨cache, none, none, false, rules⟩

/-! ## Facts about substring containment (for claim C8) -/

theorem listContainsInfix_self (l : List Char) : listContainsInfix l l = true := by
  cases l with
  | nil => rfl
  | cons a rest => simp [listContainsInfix, List.isPrefixOf_iff_prefix]

theorem strContains_self (s : String) : strContains s s = true :=
  listContainsInfix_self s.data

theorem listContainsInfix_append (pre sub : List Char) :
    listContainsInfix sub (pre ++ sub) = true := by
  induction pre with
  | nil => simpa using listContainsInfix_self sub
  | cons a pre ih => simp [listContainsInfix, ih]

theorem strContains_append (s t : String) : strContains (s ++ t) t = true := by
  rw [strContains, String.data_append]
  exact listContainsInfix_append s.data t.data

/-- C8: `appendXForwardedFor` is idempotent — when the value already
contains the real IP as a substring it is left unchanged; an empty value is
set to the IP; otherwise `","` plus the IP is appended.  The final conjunct
is idempotence proper: a second append is a no-op. -/
theorem append_xff_cases (v ip : String) :
    (strContains v ip = true → appendXForwardedFor v ip = v) ∧
    (v = "" → appendXForwardedFor v ip = ip) ∧
    (v ≠ "" → strContains v ip = false → appendXForwardedFor v ip = v ++ "," ++ ip) ∧
    appendXForwardedFor (appendXForwardedFor v ip) ip = appendXForwardedFor v ip := by
  have hcomma : (("," : String).data) = [','] := rfl
  refine ⟨?_, ?_, ?_, ?_⟩
  · intro h
    by_cases hv : v = ""
    · subst hv
      have hip : ip = "" := by
        apply String.ext
        simpa [strContains, listContainsInfix, List.isEmpty_iff] using h
      simp [appendXForwardedFor, hip]
    · simp [appendXForwardedFor, hv, h]
  · intro hv; subst hv; simp [appendXForwardedFor]
  · intro hv h; simp [appendXForwardedFor, hv, h]
  · by_cases hv : v = ""
    · subst hv
      by_cases hip : ip = ""
      · subst hip; simp [appendXForwardedFor]
      · simp [appendXForwardedFor, hip, strContains_self]
    · by_cases hc : strContains v ip = true
      · simp [appendXForwardedFor, hv, hc]
      · have hne : v ++ "," ++ ip ≠ "" := by
          intro he
          have hd := congrArg String.data he
          simp [String.data_append, hcomma] at hd
        simp [appendXForwardedFor, hv, hc, hne, strContains_append]

/-- Witness for C8: the three cases and idempotence at concrete values. -/
theorem append_xff_cases_witness :
    appendXForwardedFor "10.0.0.1,1.2.3.4" "1.2.3.4" = "10.0.0.1,1.2.3.4" ∧
    appendXForwardedFor "" "1.2.3.4" = "1.2.3.4" ∧
    appendXForwardedFor "10.0.0.1" "1.2.3.4" = "10.0.0.1" ++ "," ++ "1.2.3.4" := by
  refine ⟨?_, ?_, ?_⟩
  · exact (append_xff_cases "10.0.0.1,1.2.3.4" "1.2.3.4").1 (by decide)
  · exact (append_xff_cases "" "1.2.3.4").2.1 rfl
  · exact (append_xff_cases "10.0.0.1" "1.2.3.4").2.2.1 (by decide) (by decide)

/-- C9: after initialization the redirector's configuration is normalized,
not rejected: an invalid (case-sensitively compared) `MatchPart` becomes
`"uri"` and a valid one is kept; a `StatusCode` outside
`{301, 302, 303, 304, 307, 308}` becomes `301` and one inside is kept. -/
theorem redirector_init_normalizes (s : RedirectorSpec) :
    ((s.matchPart ≠ "uri" ∧ s.matchPart ≠ "full" ∧ s.matchPart ≠ "path") →
      (redirectorInit s).matchPart = "uri") ∧
    ((s.matchPart = "uri" ∨ s.matchPart = "full" ∨ s.matchPart = "path") →
      (redirectorInit s).matchPart = s.matchPart) ∧
    (s.statusCode ∉ ([301, 302, 303, 304, 307, 308] : List Int) →
      (redirectorInit s).statusCode = 301) ∧
    (s.statusCode ∈ ([301, 302, 303, 304, 307, 308] : List Int) →
      (redirectorInit s).statusCode = s.statusCode) := by
  refine ⟨?_, ?_, ?_, ?_⟩
  · intro h; simp [redirectorInit, h.1, h.2.1, h.2.2]
  · intro h; simp only [redirectorInit]; rw [if_pos h]
  · intro h; simp [redirectorInit, h]
  · intro h; simp only [redirectorInit]; rw [if_pos h]

/-- Witness for C9: the invalid `TestRedirector` rows — `MatchPart "uRi"`
with status 200 normalizes to `"uri"`/301, and the valid row
`("path", 303)` is kept. -/
theorem redirector_init_normalizes_witness :
    (redirectorInit ⟨"(.*)", "uRi", "$1", 200⟩).matchPart = "uri" ∧
    (redirectorInit ⟨"(.*)", "uRi", "$1", 200⟩).statusCode = 301 ∧
    (redirectorInit ⟨"(.*)", "path", "$1", 303⟩).matchPart = "path" ∧
    (redirectorInit ⟨"(.*)", "path", "$1", 303⟩).statusCode = 303 := by
  refine ⟨?_, ?_, ?_, ?_⟩
  · exact (redirector_init_normalizes ⟨"(.*)", "uRi", "$1", 200⟩).1 (by decide)
  · exact (redirector_init_normalizes ⟨"(.*)", "uRi", "$1", 200⟩).2.2.1 (by decide)
  · exact (redirector_init_normalizes ⟨"(.*)", "path", "$1", 303⟩).2.1 (Or.inr (Or.inr rfl))
  · exact (redirector_init_normalizes ⟨"(.*)", "path", "$1", 303⟩).2.2.2 (by decide)

/-- C10: the cache fingerprint is the bare concatenation of host, method
and path, so it is not injective: the distinct tuples `("ab", "c", "d")`
and `("a", "bc", "d")` share the fingerprint `"abcd"`, and a decision
stored through `putCacheItem` for the first is returned by `getCacheItem`
for the second. -/
theorem cache_fingerprint_collision :
    (("ab", "c", "d") : String × String × String) ≠ ("a", "bc", "d") ∧
    reqKey ⟨"ab", "c", "d", [], ""⟩ = reqKey ⟨"a", "bc", "d", [], ""⟩ ∧
    getCacheItem
      { plainRules (some []) [] with
        cache := putCacheItem (plainRules (some []) []) ⟨"ab", "c", "d", [], ""⟩
          ⟨false, none, none, true, false⟩ }
      ⟨"a", "bc", "d", [], ""⟩ = some ⟨true, none, none, true, false⟩ := by
  exact ⟨by decide, rfl, rfl⟩

/-- C1 counterexample: a path whose single header rule misses the request
is dispatched to that same path's backend (`B1`), not to the next path
candidate (`B2`, which also matches the request path). -/
theorem header_miss_dispatches_first_path :
    (serveHTTP
      (plainRules none [simpleRule
        [testPath "/x" "B1" [] [⟨"K", ["v"], "", none⟩],
         testPath "/x" "B2" [] []]])
      (fun _ => true)
      ⟨"h", "GET", "/x", [("K", "w")], "1.1.1.1"⟩).1 = Outcome.handled "B1" "/x" "" ∧
    "B1" ≠ "B2" := by
  exact ⟨rfl, by decide⟩

/-- C1 (amended): when every header rule of a matched path misses, the path
still matches — the dispatcher records a cacheable matched(path) decision
for that same path and (chain and registry permitting) dispatches to that
path's backend; the following path candidates are never consulted. -/
theorem header_miss_still_dispatches_path (rules : MuxRules) (registry : String → Bool)
    (r : Request) (p : MuxPath) (rest : List MuxPath)
    (hmp : matchPath p r = true) (hmm : matchMethod p r = true)
    (hpass : muxPathPass p r = true) (hhdr : matchHeaders p r = none) :
    servePaths rules registry r (p :: rest) =
      some (putCacheItem rules r ⟨false, p.ipFilterChain, some p, false, false⟩,
        handleRequestWithCache rules registry r ⟨false, p.ipFilterChain, some p, false, false⟩) ∧
    (ciChainAllows ⟨false, p.ipFilterChain, some p, false, false⟩ r.realIP = true →
      registry p.backend = true →
      handleRequestWithCache rules registry r ⟨false, p.ipFilterChain, some p, false, false⟩ =
        Outcome.handled p.backend (rewritePath p r.path)
          (if rules.xForwardedFor then
            appendXForwardedFor (headerGet r.headers "X-Forwarded-For") r.realIP
          else headerGet r.headers "X-Forwarded-For")) := by
  constructor
  · simp [servePaths, hmp, hmm, hpass, hhdr]
  · intro hchain hreg
    simp [handleRequestWithCache, hchain, hreg]

/-- Witness for C1's amended theorem: a concrete header miss dispatches to
the path's own backend and skips the remaining candidate. -/
theorem header_miss_still_dispatches_path_witness :
    servePaths (plainRules none []) (fun _ => true) ⟨"h", "GET", "/x", [("K", "w")], "1.1.1.1"⟩
      [testPath "/x" "B1" [] [⟨"K", ["v"], "", none⟩], testPath "/x" "B2" [] []] =
      some (none, Outcome.handled "B1" "/x" "") := by
  have h := header_miss_still_dispatches_path (plainRules none []) (fun _ => true)
    ⟨"h", "GET", "/x", [("K", "w")], "1.1.1.1"⟩
    (testPath "/x" "B1" [] [⟨"K", ["v"], "", none⟩]) [testPath "/x" "B2" [] []]
    rfl rfl rfl rfl
  exact h.1.trans rfl

/-- C2 counterexample: a rule whose host matches but none of whose paths
matches does not end the walk in a 404 — the next rule is tried and its
path is dispatched. -/
theorem host_match_no_path_tries_next_rule :
    (serveHTTP
      (plainRules none [simpleRule [testPath "/a" "B1" [] []],
                        simpleRule [testPath "/x" "B2" [] []]])
      (fun _ => true)
      ⟨"h", "GET", "/x", [], "1.1.1.1"⟩).1 = Outcome.handled "B2" "/x" "" ∧
    Outcome.handled "B2" "/x" "" ≠ Outcome.notFound := by
  exact ⟨rfl, by decide⟩

/-- C2 (amended): when a rule's host matches, its own filter passes, and
none of its paths matches, the dispatcher continues with the remaining
rules; only when the whole rule walk is exhausted does it record and handle
the cacheable `notFound` (404) decision. -/
theorem rule_fallthrough_continues (rules : MuxRules) (registry : String → Bool)
    (r : Request) (rule : MuxRule) (rest : List MuxRule)
    (hm : muxRuleMatch rule r = true) (hp : muxRulePass rule r = true)
    (hpaths : servePaths rules registry r rule.paths = none) :
    serveRules rules registry r (rule :: rest) = serveRules rules registry r rest ∧
    (getCacheItem rules r = none → muxRulesPass rules r = true →
      serveRules rules registry r rules.rules = none →
      serveHTTP rules registry r =
        (handleRequestWithCache rules registry r ⟨false, rules.ipFilterChan, none, true, false⟩,
         putCacheItem rules r ⟨false, rules.ipFilterChan, none, true, false⟩)) := by
  constructor
  · simp [serveRules, hm, hp, hpaths]
  · intro hci hpass hwalk
    simp [serveHTTP, hci, hpass, hwalk]

/-- Witness for C2's amended theorem: one rule with a matching host and a
non-matching path yields a 404 with no later rule to try. -/
theorem rule_fallthrough_continues_witness :
    serveHTTP (plainRules none [simpleRule [testPath "/a" "B1" [] []]]) (fun _ => true)
      ⟨"h", "GET", "/x", [], "1.1.1.1"⟩ = (Outcome.notFound, none) := by
  have h := rule_fallthrough_continues
    (plainRules none [simpleRule [testPath "/a" "B1" [] []]]) (fun _ => true)
    ⟨"h", "GET", "/x", [], "1.1.1.1"⟩ (simpleRule [testPath "/a" "B1" [] []]) []
    rfl rfl rfl
  exact (h.2 rfl rfl rfl).trans rfl

/-- C3: a decision produced by a header-rule hit is never written to the
route cache: the path walk returns the snapshot's cache unchanged in that
branch, and the dispatcher forwards the walk's cache state as the final
one, so after dispatching such a request the cache holds exactly what it
held before. -/
theorem header_match_not_cached (rules : MuxRules) (registry : String → Bool)
    (r : Request) (p : MuxPath) (rest : List MuxPath) (ci : CacheItem)
    (hmp : matchPath p r = true) (hmm : matchMethod p r = true)
    (hpass : muxPathPass p r = true) (hhdr : matchHeaders p r = some ci) :
    servePaths rules registry r (p :: rest) =
      some (rules.cache, handleRequestWithCache rules registry r ci) ∧
    (∀ c o, getCacheItem rules r = none → muxRulesPass rules r = true →
      serveRules rules registry r rules.rules = some (c, o) →
      serveHTTP rules registry r = (o, c)) := by
  constructor
  · simp [servePaths, hmp, hmm, hpass, hhdr]
  · intro c o hci hrp hwalk
    simp [serveHTTP, hci, hrp, hwalk]

/-- Witness for C3: a concrete header hit is dispatched while the cache —
present and empty — stays empty. -/
theorem header_match_not_cached_witness :
    serveHTTP (plainRules (some []) [simpleRule [testPath "/x" "B1" [] [⟨"K", ["v"], "", none⟩]]])
      (fun _ => true) ⟨"h", "GET", "/x", [("K", "v")], "1.1.1.1"⟩ =
      (Outcome.handled "B1" "/x" "", some []) := by
  have h := header_match_not_cached
    (plainRules (some []) [simpleRule [testPath "/x" "B1" [] [⟨"K", ["v"], "", none⟩]]])
    (fun _ => true) ⟨"h", "GET", "/x", [("K", "v")], "1.1.1.1"⟩
    (testPath "/x" "B1" [] [⟨"K", ["v"], "", none⟩]) []
    ⟨false, none, some (testPath "/x" "B1" [] [⟨"K", ["v"], "", none⟩]), false, false⟩
    rfl rfl rfl rfl
  exact h.2 (some []) (Outcome.handled "B1" "/x" "") rfl rfl rfl

/-- C6 counterexample: a rule whose `HostRegexp` `"("` fails to compile and
whose literal `Host` is empty does not become unmatchable — it matches
every request (here one with host `"any.host"`), because `muxRule.match`
treats an empty host with an absent compiled regexp as match-any. -/
theorem bad_regexp_rule_matches_requests :
    regexEngineModel.compile "(" = none ∧
    muxRuleMatch (newMuxRule regexEngineModel none ⟨none, "", "(", []⟩ [])
      ⟨"any.host", "GET", "/", [], ""⟩ = true := by
  exact ⟨rfl, rfl⟩

/-- C6 (amended): a host/path regexp that fails to compile during reload
leaves the compiled matcher absent, and other rules in the snapshot are
built independently and unaffected; but the offending rule or path does not
become unmatchable — its remaining literal matchers still apply, and when
those are empty too it degenerates to match-any and matches every
request. -/
theorem regexp_compile_failure_behavior (eng : RegexEngine) (parent : Option IPFilters)
    (rule : RuleSpec) (paths : List MuxPath) (p : PathSpec) (r : Request) :
    (rule.hostRegexp ≠ "" → eng.compile rule.hostRegexp = none →
      (newMuxRule eng parent rule paths).hostRE = none ∧
      (rule.host = "" → muxRuleMatch (newMuxRule eng parent rule paths) r = true)) ∧
    (p.pathRegexp ≠ "" → eng.compile p.pathRegexp = none →
      (newMuxPath eng parent p).pathRE = none ∧
      (p.path = "" → p.pathPrefix = "" → matchPath (newMuxPath eng parent p) r = true)) ∧
    (∀ (rootChain : Option IPFilters) (rs1 rs2 : List RuleSpec) (r0 : RuleSpec),
      buildRules eng rootChain (rs1 ++ r0 :: rs2) =
        buildRules eng rootChain rs1 ++
          buildRule eng rootChain r0 :: buildRules eng rootChain rs2) := by
  refine ⟨?_, ?_, ?_⟩
  · intro hne hfail
    have hre : (newMuxRule eng parent rule paths).hostRE = none := by
      simp [newMuxRule, hne, hfail]
    refine ⟨hre, ?_⟩
    intro hhost
    simp [muxRuleMatch, newMuxRule, hhost, hne, hfail]
  · intro hne hfail
    have hre : (newMuxPath eng parent p).pathRE = none := by
      simp [newMuxPath, hne, hfail]
    refine ⟨hre, ?_⟩
    intro hpath hpre
    simp [matchPath, newMuxPath, hpath, hpre, hne, hfail]
  · intro rootChain rs1 rs2 r0
    simp [buildRules]

/-- Witness for C6's amended theorem: the invalid pattern `"("` leaves both
matchers absent, a bare-regexp rule and path degenerate to match-any, and
rule building distributes over the rule list. -/
theorem regexp_compile_failure_behavior_witness :
    (newMuxRule regexEngineModel none ⟨none, "h.com", "(", []⟩ []).hostRE = none ∧
    matchPath (newMuxPath regexEngineModel none ⟨none, "", "", "(", "", "B", [], []⟩)
      ⟨"h", "GET", "/z", [], ""⟩ = true ∧
    buildRules regexEngineModel none ([] ++ ⟨none, "a", "", []⟩ :: []) =
      buildRules regexEngineModel none [] ++
        buildRule regexEngineModel none ⟨none, "a", "", []⟩ :: buildRules regexEngineModel none [] := by
  refine ⟨?_, ?_, ?_⟩
  · exact ((regexp_compile_failure_behavior regexEngineModel none ⟨none, "h.com", "(", []⟩ []
      ⟨none, "", "", "(", "", "B", [], []⟩ ⟨"h", "GET", "/z", [], ""⟩).1 (by decide) rfl).1
  · exact (((regexp_compile_failure_behavior regexEngineModel none ⟨none, "h.com", "(", []⟩ []
      ⟨none, "", "", "(", "", "B", [], []⟩ ⟨"h", "GET", "/z", [], ""⟩).2.1 (by decide) rfl).2 rfl rfl)
  · exact ((regexp_compile_failure_behavior regexEngineModel none ⟨none, "h.com", "(", []⟩ []
      ⟨none, "", "", "(", "", "B", [], []⟩ ⟨"h", "GET", "/z", [], ""⟩).2.2 none [] []
      ⟨none, "a", "", []⟩)

/-- C7 counterexample: a matched path with `Methods = ["GET"]`, a `POST`
request, and a path filter chain that blocks the client IP: the
`methodNotAllowed` decision is recorded and cached, but the response is 403
(`ipNotAllow`), not 405. -/
theorem method_mismatch_blocked_chain_gives_403 :
    (serveHTTP
      (plainRules (some [])
        [simpleRule [⟨none, some ⟨[ipfilterNew ⟨false, [], ["9.9.9.9"]⟩]⟩,
          "", "", "", none, ["GET"], "", "B1", []⟩]])
      (fun _ => true)
      ⟨"h", "POST", "/x", [], "9.9.9.9"⟩).1 = Outcome.ipNotAllow ∧
    Outcome.ipNotAllow ≠ Outcome.methodNotAllowed := by
  exact ⟨rfl, by decide⟩

/-- C7 (amended): on a matched path whose method check fails, the
dispatcher records a `methodNotAllowed` decision carrying that path's
filter chain; when the snapshot has a cache the marked decision is stored
under the request fingerprint (and a lookup of that fingerprint returns
it); the response is 405 when the decision's chain allows the real IP and
403 when it denies. -/
theorem method_mismatch_records_405 (rules : MuxRules) (registry : String → Bool)
    (r : Request) (p : MuxPath) (rest : List MuxPath)
    (hmp : matchPath p r = true) (hmm : matchMethod p r = false) :
    servePaths rules registry r (p :: rest) =
      some (putCacheItem rules r ⟨false, p.ipFilterChain, none, false, true⟩,
        handleRequestWithCache rules registry r ⟨false, p.ipFilterChain, none, false, true⟩) ∧
    (ciChainAllows ⟨false, p.ipFilterChain, none, false, true⟩ r.realIP = true →
      handleRequestWithCache rules registry r ⟨false, p.ipFilterChain, none, false, true⟩ =
        Outcome.methodNotAllowed) ∧
    (ciChainAllows ⟨false, p.ipFilterChain, none, false, true⟩ r.realIP = false →
      handleRequestWithCache rules registry r ⟨false, p.ipFilterChain, none, false, true⟩ =
        Outcome.ipNotAllow) ∧
    (∀ c, rules.cache = some c →
      putCacheItem rules r ⟨false, p.ipFilterChain, none, false, true⟩ =
        some (cachePut c (reqKey r) ⟨true, p.ipFilterChain, none, false, true⟩)) ∧
    (∀ c, cacheGet (cachePut c (reqKey r) ⟨true, p.ipFilterChain, none, false, true⟩) (reqKey r) =
      some ⟨true, p.ipFilterChain, none, false, true⟩) := by
  refine ⟨?_, ?_, ?_, ?_, ?_⟩
  · simp [servePaths, hmp, hmm]
  · intro h; simp [handleRequestWithCache, h]
  · intro h; simp [handleRequestWithCache, h]
  · intro c hc; simp [putCacheItem, hc]
  · intro c; simp [cacheGet, cachePut]

/-- Witness for C7's amended theorem: method mismatch with an absent chain
yields 405 and the cached entry under the fingerprint `"hPOST/x"`. -/
theorem method_mismatch_records_405_witness :
    servePaths (plainRules (some []) []) (fun _ => true) ⟨"h", "POST", "/x", [], "2.2.2.2"⟩
      [testPath "" "B1" ["GET"] []] =
      some (some [("hPOST/x", ⟨true, none, none, false, true⟩)], Outcome.methodNotAllowed) := by
  have h := method_mismatch_records_405 (plainRules (some []) []) (fun _ => true)
    ⟨"h", "POST", "/x", [], "2.2.2.2"⟩ (testPath "" "B1" ["GET"] []) [] rfl rfl
  exact h.1.trans rfl

end Easegress
